import Mathlib

/-!
Shallow embedding of the Pathtracer repository (Rust) for specification
checking.

Scalars: `f32` values are modelled as exact rationals `ℚ`.  The transcendental
float primitives the code calls (`sqrt`, `ln`, `exp`, `cos`, `sin`) are not
rational-valued, so they are modelled as an explicit oracle record `FOps`
threaded through every definition that uses them; theorems constrain the
oracle only at the values actually consumed.  Division by zero in `ℚ` yields
`0` where `f32` would yield `inf`/NaN; every place this matters is noted.

Randomness: the Rust code draws `rng.gen::<f32>()` from a mutable generator.
It is modelled as an explicit stream `RNG = List ℚ` threaded in state-passing
style, consumed in exactly the order the source draws samples.

Two integrators exist in the repository and both are embedded:
* `PT`   — the modular integrator of `src/renderer.rs` (with participating
  media, `ggx.rs`, `sphere.rs`, `plane.rs`, `mesh.rs`, `object.rs`);
* `Main` — the self-contained legacy integrator of `src/main.rs` (with a
  glass-bounce counter and a sky gradient on miss).
-/

set_option maxHeartbeats 2000000

/-- Oracle record for the `f32` math primitives the code calls. -/
structure FOps where
  sqrt : ℚ → ℚ
  ln   : ℚ → ℚ
  exp  : ℚ → ℚ
  cos  : ℚ → ℚ
  sin  : ℚ → ℚ
deriving Inhabited

/-- The `f32` value of `std::f32::consts::PI` (the float nearest π), exactly. -/
def piF : ℚ := 13176795 / 4194304

/-- Exact rational square root used to instantiate the oracle in witnesses:
correct whenever the argument is a perfect square of a rational. -/
def sqrtQ (q : ℚ) : ℚ := (Int.sqrt q.num : ℚ) / (Nat.sqrt q.den : ℚ)

/-- A concrete oracle: exact square roots on perfect squares, arbitrary
(constant) values for the other primitives. -/
def opsQ : FOps :=
  { sqrt := sqrtQ, ln := fun _ => 0, exp := fun _ => 1
    cos := fun _ => 1, sin := fun _ => 0 }

/-- Stream of pseudo-random draws; the model of `rand::Rng`. -/
abbrev RNG := List ℚ

/-- One draw (`rng.gen::<f32>()`): pop the head of the stream. -/
def RNG.next : RNG → ℚ × RNG
  | []      => (0, [])
  | q :: qs => (q, qs)

/-- `Vec3` of `src/algebra.rs` (and, identically, of `src/main.rs`):
a triple of floats with componentwise algebra. -/
structure Vec3 where
  x : ℚ
  y : ℚ
  z : ℚ
deriving DecidableEq, Inhabited

namespace Vec3

def add (a b : Vec3) : Vec3 := ⟨a.x + b.x, a.y + b.y, a.z + b.z⟩
def sub (a b : Vec3) : Vec3 := ⟨a.x - b.x, a.y - b.y, a.z - b.z⟩
def scale (a : Vec3) (f : ℚ) : Vec3 := ⟨a.x * f, a.y * f, a.z * f⟩
def dot (a b : Vec3) : ℚ := a.x * b.x + a.y * b.y + a.z * b.z
def cross (a b : Vec3) : Vec3 :=
  ⟨a.y * b.z - a.z * b.y, a.z * b.x - a.x * b.z, a.x * b.y - a.y * b.x⟩
def neg (a : Vec3) : Vec3 := ⟨-a.x, -a.y, -a.z⟩
/-- Elementwise product (`impl Mul for Vec3`). -/
def mul (a b : Vec3) : Vec3 := ⟨a.x * b.x, a.y * b.y, a.z * b.z⟩
/-- `norm = sqrt (self.dot self)`; needs the sqrt oracle. -/
def norm (ops : FOps) (a : Vec3) : ℚ := ops.sqrt (a.dot a)
/-- `normalize = scale (1/norm)`; undefined (division by zero) on `0`. -/
def normalize (ops : FOps) (a : Vec3) : Vec3 := a.scale (1 / a.norm ops)
def map (a : Vec3) (f : ℚ → ℚ) : Vec3 := ⟨f a.x, f a.y, f a.z⟩
/-- `any_orthonormal` of `src/algebra.rs`. -/
def any_orthonormal (a : Vec3) : Vec3 :=
  if |a.z| < 0.9999999 then ⟨a.y, -a.x, 0⟩ else ⟨0, -a.z, a.y⟩

end Vec3

/-- `Material` of `src/material.rs`. -/
structure Material where
  color : Vec3
  metallic : ℚ
  roughness : ℚ
  ior : ℚ
  volume_density : ℚ
  volume_anisotropy : ℚ
deriving DecidableEq, Inhabited

/-- `Light` of `src/light.rs`: rectangular area emitter. -/
structure Light where
  pos : Vec3
  u : Vec3
  v : Vec3
  intensity : Vec3
deriving DecidableEq, Inhabited

namespace PT

/-! ## `src/ggx.rs` -/

/-- `reflect` of `src/ggx.rs`. -/
def reflect (v n : Vec3) : Vec3 := v.sub (n.scale (2 * v.dot n))

/-- `fresnel_schlick` of `src/ggx.rs`. -/
def fresnel_schlick (cos_theta : ℚ) (f0 : Vec3) : Vec3 :=
  f0.add (((Vec3.mk 1 1 1).sub f0).scale ((1 - cos_theta) ^ 5))

/-- `d_term` of `src/ggx.rs`: GGX normal-distribution factor.  Note the
parameter `a` is squared exactly once inside. -/
def d_term (nh a : ℚ) : ℚ :=
  let a2 := a * a
  a2 / (piF * (nh * nh * (a2 - 1) + 1) ^ 2)

/-- `g_term` of `src/ggx.rs`: Smith-style geometry factor with `k = a²/2`. -/
def g_term (nv nl a : ℚ) : ℚ :=
  let k := a * a / 2
  let g1 := nv / (nv * (1 - k) + k)
  let g2 := nl / (nl * (1 - k) + k)
  g1 * g2

/-- `sample_ggx_h` of `src/ggx.rs`: GGX half-vector importance sample.
Consumes two random draws; note `a = roughness²`, `a2 = a² = roughness⁴`
in the `cos_theta` inversion. -/
def sample_ggx_h (ops : FOps) (n : Vec3) (roughness : ℚ) (rng : RNG) :
    Vec3 × RNG :=
  let a := roughness * roughness
  let a2 := a * a
  let (r1, rng1) := rng.next
  let (r2, rng2) := rng1.next
  let phi := 2 * piF * r1
  let cos_theta := ops.sqrt ((1 - r2) / (1 + (a2 - 1) * r2))
  let sin_theta := ops.sqrt (max (1 - cos_theta * cos_theta) 0)
  let h_tangent : Vec3 := ⟨ops.cos phi * sin_theta, ops.sin phi * sin_theta, cos_theta⟩
  let w := n
  let u := (n.any_orthonormal).normalize ops
  let v := w.cross u
  (((u.scale h_tangent.x).add (v.scale h_tangent.y)).add (w.scale h_tangent.z), rng2)

/-! ## `src/sphere.rs` -/

/-- `Sphere` of `src/sphere.rs` (the `name : String` field is omitted as
inert data). -/
structure Sphere where
  center : Vec3
  radius : ℚ
  material : Material
  in_focus : Bool
deriving DecidableEq, Inhabited

/-- `Sphere::hit` of `src/sphere.rs`: analytic quadratic, smaller root only.
In `ℚ`, `x / 0 = 0`, where `f32` would give `±inf`/NaN for `a = 0`; both
make the final `t ≤ 0` test reject, so the `Option` result agrees. -/
def Sphere.hit (ops : FOps) (s : Sphere) (ro rd : Vec3) :
    Option (ℚ × Vec3 × Material) :=
  let oc := ro.sub s.center
  let a := rd.dot rd
  let b := 2 * oc.dot rd
  let c := oc.dot oc - s.radius * s.radius
  let disc := b * b - 4 * a * c
  if disc < 0 then none
  else
    let t := (-b - ops.sqrt disc) / (2 * a)
    if t ≤ 0 then none
    else
      let hit := ro.add (rd.scale t)
      let normal := (hit.sub s.center).scale (1 / s.radius)
      some (t, normal, s.material)

/-! ## `src/plane.rs` -/

/-- `Plane` of `src/plane.rs`: finite parallelogram (the `name` field is
omitted as inert data). -/
structure Plane where
  point : Vec3
  u : Vec3
  v : Vec3
  normal : Vec3
  material : Material
deriving DecidableEq, Inhabited

/-- `Plane::hit` of `src/plane.rs`.  The source's `!t.is_finite()` rejection
cannot fire in `ℚ` (every rational is finite) and is dropped. -/
def Plane.hit (p : Plane) (ro rd : Vec3) : Option (ℚ × Vec3 × Material) :=
  let denom := p.normal.dot rd
  if |denom| < 1e-6 then none
  else
    let t := (p.point.sub ro).dot p.normal / denom
    if t ≤ 1e-4 then none
    else
      let hit_normal := if denom < 0 then p.normal else p.normal.neg
      let hit := ro.add (rd.scale t)
      let d := hit.sub p.point
      let du := d.dot p.u
      let u2 := p.u.dot p.u
      if |du| > u2 then none
      else
        let dv := d.dot p.v
        let v2 := p.v.dot p.v
        if |dv| > v2 then none
        else some (t, hit_normal, p.material)

/-! ## `src/mesh.rs` -/

/-- `Triangle` of `src/mesh.rs`. -/
structure Triangle where
  v0 : Vec3
  v1 : Vec3
  v2 : Vec3
  normal : Vec3
deriving DecidableEq, Inhabited

/-- `Mesh` of `src/mesh.rs` (`name` omitted as inert data). -/
structure Mesh where
  triangles : List Triangle
  material : Material
  in_focus : Bool
deriving DecidableEq, Inhabited

/-- `triangle_intersect` of `src/mesh.rs` (Möller–Trumbore). -/
def triangle_intersect (tri : Triangle) (ro rd : Vec3) : Option ℚ :=
  let e1 := tri.v1.sub tri.v0
  let e2 := tri.v2.sub tri.v0
  let p := rd.cross e2
  let det := e1.dot p
  if |det| < 1e-8 then none
  else
    let inv_det := 1 / det
    let tvec := ro.sub tri.v0
    let u := tvec.dot p * inv_det
    if u < 0 ∨ u > 1 then none
    else
      let q := tvec.cross e1
      let v := rd.dot q * inv_det
      if v < 0 ∨ u + v > 1 then none
      else
        let t := e2.dot q * inv_det
        if t > 0 then some t else none

/-- The accumulating loop of `Mesh::hit`: `closest_t` starts at
`f32::INFINITY`, modelled by `none`. -/
def meshFold : List Triangle → Vec3 → Vec3 → Option (ℚ × Vec3) →
    Option (ℚ × Vec3)
  | [], _, _, acc => acc
  | tri :: rest, ro, rd, acc =>
    match triangle_intersect tri ro rd with
    | none => meshFold rest ro rd acc
    | some t =>
      match acc with
      | none =>
        if t > 1e-4 then meshFold rest ro rd (some (t, tri.normal))
        else meshFold rest ro rd acc
      | some (ct, cn) =>
        if t > 1e-4 ∧ t < ct then meshFold rest ro rd (some (t, tri.normal))
        else meshFold rest ro rd (some (ct, cn))

/-- `Mesh::hit` of `src/mesh.rs`. -/
def Mesh.hit (m : Mesh) (ro rd : Vec3) : Option (ℚ × Vec3 × Material) :=
  match meshFold m.triangles ro rd none with
  | none => none
  | some (t, n) => some (t, n, m.material)

/-! ## `src/object.rs` -/

/-- `Object` of `src/object.rs`. -/
inductive Object where
  | sphere (s : Sphere)
  | plane (p : Plane)
  | mesh (m : Mesh)
deriving DecidableEq, Inhabited

/-- `Object::hit` of `src/object.rs`. -/
def Object.hit (ops : FOps) (o : Object) (ro rd : Vec3) :
    Option (ℚ × Vec3 × Material) :=
  match o with
  | .sphere s => s.hit ops ro rd
  | .plane p => p.hit ro rd
  | .mesh m => m.hit ro rd

/-! ## Closest hit (`intersect_closest` of `src/renderer.rs`)

`f32::total_cmp` is a total order even on NaN.  To state NaN-safety the
candidate distances are modelled by `FNa`: either a finite number or the
(positive, quiet) NaN that degenerate float geometry produces; `total_cmp`
places that NaN above every number. -/

/-- A float that is either a number or NaN. -/
inductive FNa where
  | fin (q : ℚ)
  | nan
deriving DecidableEq, Inhabited

/-- `f32::total_cmp`, restricted to the values of the model: numbers compare
numerically and (positive, quiet) NaN sorts above every number. -/
def totalCmp : FNa → FNa → Ordering
  | .fin a, .fin b => compare a b
  | .fin _, .nan => .lt
  | .nan, .fin _ => .gt
  | .nan, .nan => .eq

/-- A candidate hit whose distance may be NaN. -/
abbrev CandF := FNa × Vec3 × Material

/-- `Iterator::min_by` with comparator `total_cmp` on the distance: keeps the
earlier element unless the later one is strictly smaller, so the first
minimum wins.  Total — defined on every candidate list, NaN included. -/
def minByTot {α : Type} (cs : List (FNa × α)) : Option (FNa × α) :=
  match cs with
  | [] => none
  | c :: rest => some (rest.foldl (fun x y => if totalCmp x.1 y.1 = .gt then y else x) c)

/-- `Iterator::min_by` with comparator `total_cmp` specialised to the
candidates the `ℚ` embedding produces (all finite, where `total_cmp`
coincides with the numeric order). -/
def minByQ {α : Type} (cs : List (ℚ × α)) : Option (ℚ × α) :=
  match cs with
  | [] => none
  | c :: rest => some (rest.foldl (fun x y => if compare x.1 y.1 = .gt then y else x) c)

/-- `intersect_closest` of `src/renderer.rs`: linear scan, minimum by `t`
under `total_cmp`. -/
def intersect_closest (ops : FOps) (ro rd : Vec3) (objs : List Object) :
    Option (ℚ × Vec3 × Material) :=
  minByQ (objs.filterMap (fun o => o.hit ops ro rd))

/-! ## `src/renderer.rs`: the path integrator -/

def MAX_DEPTH : ℕ := 5
def RUSSIAN_ROULETTE_DEPTH : ℕ := 2

/-- The `let (etai, etat) = …` binding of the dielectric branch of `trace`
in `src/renderer.rs`: eta ordering depends on entering vs exiting. -/
def dielectricEtas (cosi ior : ℚ) : ℚ × ℚ :=
  if 0 < cosi then (1, ior) else (ior, 1)

/-- The `let r0 = …` binding of the dielectric branch of `trace` in
`src/renderer.rs`: Schlick base reflectance. -/
def schlickR0 (etai etat : ℚ) : ℚ := ((etai - etat) / (etai + etat)) ^ 2

/-- `refract` of `src/renderer.rs`. -/
def refract (ops : FOps) (v n : Vec3) (eta_ratio : ℚ) : Option Vec3 :=
  let cos_theta := min ((v.neg).dot n) 1
  let r_out_perp := (v.add (n.scale cos_theta)).scale eta_ratio
  let r_out_parallel := n.scale (-(ops.sqrt |1 - r_out_perp.dot r_out_perp|))
  if r_out_perp.dot r_out_perp < 1 then some (r_out_perp.add r_out_parallel)
  else none

/-- `sample_phase_function` of `src/renderer.rs` (Henyey-Greenstein inverse
CDF); consumes one draw on either branch. -/
def sample_phase_function (ops : FOps) (g : ℚ) (rng : RNG) : ℚ × RNG :=
  if |g| < 1e-3 then
    let (r, rng1) := rng.next
    (1 - 2 * r, rng1)
  else
    let (r, rng1) := rng.next
    let g2 := g * g
    let term := (1 - g2) / (1 - g + 2 * g * r)
    ((1 + g2 - term * term) / (2 * g), rng1)

/-- One iteration of the `SHADOW_SAMPLES` loop in `direct_light_sample` of
`src/renderer.rs`: sample the light, shadow-test, evaluate the BRDF.
Consumes exactly the two draws the source does. -/
def shadowSample (ops : FOps) (hit n v : Vec3) (mat : Material)
    (objs : List Object) (light : Light) (rng : RNG) : Vec3 × RNG :=
  let (ra, rng1) := rng.next
  let (rb, rng2) := rng1.next
  let lp := (light.pos.add (light.u.scale (ra - 0.5))).add (light.v.scale (rb - 0.5))
  let lvec := lp.sub hit
  let dist2 := lvec.dot lvec
  let l := lvec.normalize ops
  let shadow_ro := hit.add (l.scale 1e-4)
  if objs.any (fun o => match o.hit ops shadow_ro l with
      | some (t, _, _) => decide (t * t < dist2 * 0.999)
      | none => false) then
    (⟨0, 0, 0⟩, rng2)
  else
    let n_dot_l := max (n.dot l) 0
    if 0 < n_dot_l then
      let light_area := (light.u.cross light.v).norm ops
      let light_normal := (light.u.cross light.v).normalize ops
      let cos_theta_light := max ((l.neg).dot light_normal) 0
      if 0 < cos_theta_light then
        let falloff := cos_theta_light / dist2
        let h := (v.add l).normalize ops
        let n_dot_v := max (n.dot v) 1e-4
        let n_dot_h := max (n.dot h) 0
        let v_dot_h := max (v.dot h) 0
        let f0 := ((Vec3.mk 0.04 0.04 0.04).scale (1 - mat.metallic)).add
          (mat.color.scale mat.metallic)
        let f := fresnel_schlick v_dot_h f0
        let d := d_term n_dot_h mat.roughness
        let g := g_term n_dot_v n_dot_l mat.roughness
        let spec_numerator := f.scale (d * g)
        let spec_denominator := 4 * n_dot_v * n_dot_l
        let specular_brdf := spec_numerator.scale (1 / (spec_denominator + 1e-6))
        let diffuse_color := mat.color.scale (1 - mat.metallic)
        let k_d := (Vec3.mk 1 1 1).sub f
        let diffuse_brdf := (diffuse_color.mul k_d).scale (1 / piF)
        let radiance := (diffuse_brdf.add specular_brdf).scale n_dot_l
        ((radiance.mul light.intensity).scale (light_area * falloff), rng2)
      else (⟨0, 0, 0⟩, rng2)
    else (⟨0, 0, 0⟩, rng2)

/-- The inner `for _ in 0..SHADOW_SAMPLES` loop of `direct_light_sample`. -/
def shadowLoop (ops : FOps) (hit n v : Vec3) (mat : Material)
    (objs : List Object) (light : Light) : ℕ → Vec3 → RNG → Vec3 × RNG
  | 0, acc, rng => (acc, rng)
  | k + 1, acc, rng =>
    let (c, rng1) := shadowSample ops hit n v mat objs light rng
    shadowLoop ops hit n v mat objs light k (acc.add c) rng1

/-- `direct_light_sample` of `src/renderer.rs` with `SHADOW_SAMPLES = 4`:
per light, average four stratified shadow samples; sum over lights. -/
def direct_light_sample (ops : FOps) (hit n v : Vec3) (mat : Material)
    (objs : List Object) (lights : List Light) (rng : RNG) : Vec3 × RNG :=
  lights.foldl
    (fun acc light =>
      let (lc, rng1) := shadowLoop ops hit n v mat objs light 4 ⟨0, 0, 0⟩ acc.2
      (acc.1.add (lc.scale (1 / (4 : ℚ))), rng1))
    ((⟨0, 0, 0⟩ : Vec3), rng)

/-- The `let next_media = …` binding of `trace` in `src/renderer.rs`: the
medium carried into the recursive call after a surface interaction. -/
def nextMedia (mat : Material) (current_media : Option Material) (v n : Vec3) :
    Option Material :=
  if mat.volume_density > 0 then
    if v.dot n > 0 then some mat else none
  else current_media

/-- The `let (next_dir, brdf) = …` binding in the opaque branch of `trace`
in `src/renderer.rs`: choose a diffuse cosine-weighted bounce with
probability `1 - metallic`, else a GGX specular bounce. -/
def sampleBounceDir (ops : FOps) (n v : Vec3) (mat : Material) (rng : RNG) :
    (Vec3 × Vec3) × RNG :=
  let (xi, rng1) := rng.next
  if xi < 1 - mat.metallic then
    let w := n
    let u := (w.any_orthonormal).normalize ops
    let v_cross := w.cross u
    let (p1, rng2) := rng1.next
    let phi := 2 * piF * p1
    let (r2, rng3) := rng2.next
    ((((((u.scale (ops.cos phi * ops.sqrt r2)).add
          (v_cross.scale (ops.sin phi * ops.sqrt r2))).add
          (w.scale (ops.sqrt (1 - r2)))).normalize ops),
      mat.color.scale (1 / piF)), rng3)
  else
    let (h, rng2) := sample_ggx_h ops n mat.roughness rng1
    ((reflect v.neg h, ⟨1, 1, 1⟩), rng2)

/-- `a < b` for distances where `none` models `f32::INFINITY`. -/
def ltInf : Option ℚ → Option ℚ → Bool
  | none, _ => false
  | some _, none => true
  | some a, some b => decide (a < b)

/-- `a.min b` where the right side may be `f32::INFINITY` (`none`). -/
def minInf (a : ℚ) : Option ℚ → ℚ
  | none => a
  | some b => min a b

/-- The recursion of `trace` of `src/renderer.rs`, made structural on a fuel
argument.  The wrapper `trace` below always passes `fuel = MAX_DEPTH - depth`,
so `fuel = 0` is reached exactly when the source's `depth >= MAX_DEPTH` guard
fires, and both return black; for `fuel > 0` the guard and body are the
source's.  `current_media.getD default` models the source's
`current_media.unwrap()`, reached only when a medium is present. -/
def traceF (ops : FOps) (objs : List Object) (lights : List Light) :
    ℕ → Vec3 → Vec3 → ℕ → RNG → Option Material → Vec3 × RNG
  | 0, _, _, _, rng, _ => (⟨0, 0, 0⟩, rng)
  | fuel + 1, ro, rd, depth, rng, current_media =>
  if MAX_DEPTH ≤ depth then (⟨0, 0, 0⟩, rng)
  else
    let surface_hit := intersect_closest ops ro rd objs
    let t_surface : Option ℚ := surface_hit.map (fun x => x.1)
    let (t_media, absorption, rng1) :=
      match current_media with
      | some media =>
        if media.volume_density > 0 then
          let (r, rngA) := rng.next
          let sample_dist := -(ops.ln r) / media.volume_density
          let absorption_coeff :=
            media.color.map (fun c => max (1 - c) 0 * media.volume_density)
          (some sample_dist,
           ((absorption_coeff.neg).scale (minInf sample_dist t_surface)).map ops.exp,
           rngA)
        else ((none : Option ℚ), (⟨1, 1, 1⟩ : Vec3), rng)
      | none => ((none : Option ℚ), (⟨1, 1, 1⟩ : Vec3), rng)
    if ltInf t_media t_surface then
      let t_m := (t_media).getD 0
      let media := current_media.getD default
      let hit_point := ro.add (rd.scale t_m)
      let (direct_light, rng2) :=
        direct_light_sample ops hit_point ⟨0, 1, 0⟩ rd.neg media objs lights rng1
      let w := rd
      let u := (w.any_orthonormal).normalize ops
      let v_cross := w.cross u
      let (cos_theta, rng3) := sample_phase_function ops media.volume_anisotropy rng2
      let sin_theta := ops.sqrt (1 - cos_theta * cos_theta)
      let (pr, rng4) := rng3.next
      let phi := 2 * piF * pr
      let next_dir := (((u.scale (ops.cos phi * sin_theta)).add
        (v_cross.scale (ops.sin phi * sin_theta))).add
        (w.scale cos_theta)).normalize ops
      let (rec, rng5) :=
        traceF ops objs lights fuel hit_point next_dir (depth + 1) rng4 current_media
      ((direct_light.add rec).mul absorption, rng5)
    else
      match surface_hit with
      | none => ((⟨0, 0, 0⟩ : Vec3).mul absorption, rng1)
      | some (t, n, mat0) =>
        let hit := ro.add (rd.scale t)
        let v := rd.neg
        let mat : Material :=
          { mat0 with
            metallic := min (max mat0.metallic 0) 1
            roughness := min (max mat0.roughness 0.01) 1 }
        let next_media := nextMedia mat current_media v n
        if 1 < mat.ior ∧ mat.metallic < 0.1 then
          let cosi := min (max (v.dot n) (-1)) 1
          let (etai, etat) := dielectricEtas cosi mat.ior
          let hit_normal := if 0 < cosi then n else n.neg
          let r0 := schlickR0 etai etat
          let reflectance := r0 + (1 - r0) * (1 - |cosi|) ^ 5
          let (xi, rng2) := rng1.next
          let next_dir :=
            if xi < reflectance then reflect v.neg hit_normal
            else match refract ops v.neg hit_normal (etai / etat) with
              | some rdir => rdir
              | none => reflect v.neg hit_normal
          let (rec, rng3) :=
            traceF ops objs lights fuel (hit.add (next_dir.scale 1e-4)) next_dir
              (depth + 1) rng2 next_media
          (rec.mul absorption, rng3)
        else
          let (direct_light, rng2) :=
            direct_light_sample ops hit n v mat objs lights rng1
          let p := max (max mat.color.x mat.color.y) mat.color.z
          let (cont, rngc) :=
            if depth < RUSSIAN_ROULETTE_DEPTH then (true, rng2)
            else
              let (xi, rng3) := rng2.next
              (decide (xi < p), rng3)
          if cont then
            let ((next_dir, brdf), rng3) := sampleBounceDir ops n v mat rngc
            if 0 < next_dir.dot n then
              let (incoming, rng4) :=
                traceF ops objs lights fuel (hit.add (next_dir.scale 1e-4)) next_dir
                  (depth + 1) rng3 next_media
              let ind0 := (incoming.mul brdf).scale (next_dir.dot n)
              let indirect :=
                if RUSSIAN_ROULETTE_DEPTH ≤ depth then ind0.scale (1 / p)
                else ind0
              ((direct_light.add indirect).mul absorption, rng4)
            else ((direct_light.add ⟨0, 0, 0⟩).mul absorption, rng3)
          else ((direct_light.add ⟨0, 0, 0⟩).mul absorption, rngc)

/-- `trace` of `src/renderer.rs`: the recursive path integrator carrying an
optional participating medium, returning the radiance and the advanced RNG
stream.  Defined via `traceF` with fuel `MAX_DEPTH - depth`, which agrees
with the source's `depth >= MAX_DEPTH` termination guard at every depth. -/
def trace (ops : FOps) (ro rd : Vec3) (objs : List Object)
    (lights : List Light) (depth : ℕ) (rng : RNG)
    (current_media : Option Material) : Vec3 × RNG :=
  traceF ops objs lights (MAX_DEPTH - depth) ro rd depth rng current_media

end PT

namespace Main

/-! ## `src/main.rs`: the self-contained legacy integrator -/

def MAX_DEPTH : ℕ := 12
def MAX_GLASS_BOUNCES : ℕ := 8

/-- `Material` of `src/main.rs` (no medium parameters). -/
structure Material where
  color : Vec3
  metallic : ℚ
  roughness : ℚ
  ior : ℚ
deriving DecidableEq, Inhabited

/-- `Light` of `src/main.rs`. -/
structure Light where
  pos : Vec3
  u : Vec3
  v : Vec3
  intensity : Vec3
deriving DecidableEq, Inhabited

/-- `Object` of `src/main.rs`: sphere or infinite one-sided plane. -/
inductive Object where
  | sphere (center : Vec3) (radius : ℚ) (material : Material)
  | plane (point : Vec3) (normal : Vec3) (material : Material)
deriving DecidableEq, Inhabited

/-- `reflect` of `src/main.rs`. -/
def reflect (v n : Vec3) : Vec3 := v.sub (n.scale (2 * v.dot n))

/-- `fresnel_schlick` of `src/main.rs`. -/
def fresnel_schlick (cos_theta : ℚ) (f0 : Vec3) : Vec3 :=
  f0.add (((Vec3.mk 1 1 1).sub f0).scale ((1 - cos_theta) ^ 5))

/-- `ggx_d` of `src/main.rs`; like `d_term`, squares its `alpha` argument
exactly once. -/
def ggx_d (n_dot_h alpha : ℚ) : ℚ :=
  let a2 := alpha * alpha
  a2 / (piF * (n_dot_h * n_dot_h * (a2 - 1) + 1) ^ 2)

/-- `ggx_g` of `src/main.rs` (the height-correlated Smith form — a different
formulation from `g_term` of `src/ggx.rs`). -/
def ggx_g (ops : FOps) (n_dot_v n_dot_l alpha : ℚ) : ℚ :=
  let g1 := 2 / (1 + ops.sqrt (1 + alpha * alpha * (1 - n_dot_v * n_dot_v) / (n_dot_v * n_dot_v)))
  let g2 := 2 / (1 + ops.sqrt (1 + alpha * alpha * (1 - n_dot_l * n_dot_l) / (n_dot_l * n_dot_l)))
  g1 * g2

/-- `intersect` of `src/main.rs`.  The sphere branch normalizes the normal
with `normalize` (not the `1/radius` scaling of `src/sphere.rs`); the plane
branch is an infinite plane with no bounds check and no normal flip. -/
def intersect (ops : FOps) (obj : Object) (ro rd : Vec3) :
    Option (ℚ × Vec3 × Material) :=
  match obj with
  | .sphere center radius material =>
    let oc := ro.sub center
    let a := rd.dot rd
    let b := 2 * oc.dot rd
    let c := oc.dot oc - radius * radius
    let disc := b * b - 4 * a * c
    if disc < 0 then none
    else
      let t := (-b - ops.sqrt disc) / (2 * a)
      if t > 0 then
        let hit := ro.add (rd.scale t)
        some (t, (hit.sub center).normalize ops, material)
      else none
  | .plane point normal material =>
    let denom := normal.dot rd
    if |denom| < 1e-6 then none
    else
      let t := (point.sub ro).dot normal / denom
      if t > 0 then some (t, normal, material) else none

/-- `intersect_closest` of `src/main.rs`.  The source takes the minimum with
`partial_cmp(..).unwrap()`, which panics on NaN; over `ℚ` every comparison
is defined, so it coincides with the total-order minimum. -/
def intersect_closest (ops : FOps) (ro rd : Vec3) (objs : List Object) :
    Option (ℚ × Vec3 × Material) :=
  PT.minByQ (objs.filterMap (fun o => intersect ops o ro rd))

/-- One iteration of the 8-sample loop of `lighting` in `src/main.rs`,
returning the `(diff, spec)` increments. -/
def lightSample (ops : FOps) (hit n v : Vec3) (mat : Material)
    (objs : List Object) (light : Light) (rng : RNG) :
    (Vec3 × Vec3) × RNG :=
  let (uo, rng1) := rng.next
  let (vo, rng2) := rng1.next
  let lp := (light.pos.add (light.u.scale (uo - 0.5))).add (light.v.scale (vo - 0.5))
  let ld := lp.sub hit
  let dist2 := ld.dot ld
  let l := ld.normalize ops
  let shadow_ro := hit.add (n.scale 0.001)
  if objs.any (fun o => match intersect ops o shadow_ro l with
      | some (t, _, _) => decide (t * t < dist2)
      | none => false) then
    ((⟨0, 0, 0⟩, ⟨0, 0, 0⟩), rng2)
  else
    let n_dot_l := max (n.dot l) 0
    let diff := mat.color.scale n_dot_l
    let h := (l.add v).normalize ops
    let n_dot_v := max (n.dot v) 1e-4
    let n_dot_l2 := max (n.dot l) 1e-4
    let n_dot_h := max (n.dot h) 0
    let v_dot_h := max (v.dot h) 0
    let f0 := (Vec3.mk 0.04 0.04 0.04).add (mat.color.scale mat.metallic)
    let f := fresnel_schlick v_dot_h f0
    let d := ggx_d n_dot_h mat.roughness
    let g := ggx_g ops n_dot_v n_dot_l2 mat.roughness
    let spec_c := f.scale (d * g / (4 * n_dot_v * n_dot_l2))
    ((diff, spec_c.scale n_dot_l), rng2)

/-- The 8-iteration accumulation loop of `lighting`. -/
def lightLoop (ops : FOps) (hit n v : Vec3) (mat : Material)
    (objs : List Object) (light : Light) : ℕ → Vec3 → Vec3 → RNG →
    (Vec3 × Vec3) × RNG
  | 0, diff, spec, rng => ((diff, spec), rng)
  | k + 1, diff, spec, rng =>
    let ((d, s), rng1) := lightSample ops hit n v mat objs light rng
    lightLoop ops hit n v mat objs light k (diff.add d) (spec.add s) rng1

/-- `lighting` of `src/main.rs` with `samples = 8`. -/
def lighting (ops : FOps) (hit n v : Vec3) (mat : Material)
    (objs : List Object) (light : Light) (rng : RNG) : Vec3 × RNG :=
  let ((diff, spec), rng1) :=
    lightLoop ops hit n v mat objs light 8 ⟨0, 0, 0⟩ ⟨0, 0, 0⟩ rng
  ((diff.scale (light.intensity.x / 8)).add (spec.scale (light.intensity.x / 8)), rng1)

/-- `refract` of `src/main.rs`.  Note `cos_i = -(dir·n).max(-1).min(1)`
(Rust method calls bind tighter than unary minus). -/
def refract (ops : FOps) (dir normal : Vec3) (eta : ℚ) : Option Vec3 :=
  let cos_i := -(min (max (dir.dot normal) (-1)) 1)
  let n := if cos_i < 0 then normal.neg else normal
  let eta_i := if cos_i < 0 then eta else 1
  let eta_t := if cos_i < 0 then (1 : ℚ) else eta
  let eta_ratio := eta_i / eta_t
  let k := 1 - eta_ratio * eta_ratio * (1 - cos_i * cos_i)
  if k < 0 then none
  else some ((dir.scale eta_ratio).add (n.scale (eta_ratio * cos_i - ops.sqrt k)))

/-- The sky/environment gradient of `trace` in `src/main.rs`:
`lerp(white, (0.5,0.7,1.0), 0.5·(y+1))`, a function of the ray direction's
y-component only. -/
def skyGradient (y : ℚ) : Vec3 :=
  let t := 0.5 * (y + 1)
  ((Vec3.mk 1 1 1).scale (1 - t)).add ((Vec3.mk 0.5 0.7 1).scale t)

/-- The recursion of `trace` of `src/main.rs`, made structural on a fuel
argument.  The wrapper `trace` below always passes `fuel = MAX_DEPTH - depth`,
so `fuel = 0` is reached exactly when the source's `depth >= MAX_DEPTH`
termination test fires, and both return black; for `fuel > 0` the guards and
body are the source's. -/
def traceF (ops : FOps) (objs : List Object) (light : Light) :
    ℕ → Vec3 → Vec3 → ℕ → ℕ → RNG → Vec3 × RNG
  | 0, _, _, _, _, rng => (⟨0, 0, 0⟩, rng)
  | fuel + 1, ro, rd, depth, glass_bounces, rng =>
  if MAX_DEPTH ≤ depth then (⟨0, 0, 0⟩, rng)
  else if MAX_GLASS_BOUNCES ≤ glass_bounces then (⟨0, 0, 0⟩, rng)
  else
    match intersect_closest ops ro rd objs with
    | none => (skyGradient rd.y, rng)
    | some (t, n, mat) =>
      let hit := ro.add (rd.scale t)
      if mat.roughness < 0.05 ∧ mat.metallic < 0.5 then
        let reflect_dir := (reflect rd n).normalize ops
        let refract_dir := (refract ops rd n (1 / mat.ior)).map (fun x => x.normalize ops)
        let fres := fresnel_schlick (max ((rd.neg).dot n) 0) ⟨1, 1, 1⟩
        let (refl, rng1) :=
          traceF ops objs light fuel (hit.add (n.scale 0.001)) reflect_dir
            (depth + 1) (glass_bounces + 1) rng
        let (refr, rng2) :=
          match refract_dir with
          | some rd2 =>
            traceF ops objs light fuel (hit.sub (n.scale 0.001)) rd2
              (depth + 1) (glass_bounces + 1) rng1
          | none => ((⟨0, 0, 0⟩ : Vec3), rng1)
        ((refl.scale fres.x).add (refr.scale (1 - fres.x)), rng2)
      else
        let (direct, rng1) := lighting ops hit n (rd.neg) mat objs light rng
        let w := n
        let u := if |w.x| > 0.1 then (w.cross ⟨0, 1, 0⟩).normalize ops
                 else (w.cross ⟨1, 0, 0⟩).normalize ops
        let v := w.cross u
        let (r1, rng2) := rng1.next
        let (r2, rng3) := rng2.next
        let phi := 2 * piF * r1
        let cos_t := ops.sqrt (1 - r2)
        let sin_t := ops.sqrt r2
        let hemi_dir := (((u.scale (ops.cos phi * sin_t)).add
          (v.scale (ops.sin phi * sin_t))).add (w.scale cos_t)).normalize ops
        let (indirect, rng4) :=
          traceF ops objs light fuel (hit.add (n.scale 0.001)) hemi_dir
            (depth + 1) glass_bounces rng3
        (direct.add (indirect.scale mat.color.x), rng4)

/-- `trace` of `src/main.rs`: legacy integrator with a glass-bounce counter
and a sky gradient on miss.  Defined via `traceF` with fuel
`MAX_DEPTH - depth`, which agrees with the source's `depth >= MAX_DEPTH`
termination test at every depth. -/
def trace (ops : FOps) (ro rd : Vec3) (objs : List Object) (light : Light)
    (depth glass_bounces : ℕ) (rng : RNG) : Vec3 × RNG :=
  traceF ops objs light (MAX_DEPTH - depth) ro rd depth glass_bounces rng

end Main

/-! ## Specification-side definitions

Each of the following definitions transcribes the words of a spec claim (not
the source); theorems below compare them with the embedded code. -/

/-- The GGX normal-distribution formula of the spec with `α = roughness²`,
as the claim states it: `D = α² / (π·((n·h)²(α²−1)+1)²)`. -/
def ggxD_alphaSq (rho nh : ℚ) : ℚ :=
  let alpha := rho ^ 2
  alpha ^ 2 / (piF * (nh ^ 2 * (alpha ^ 2 - 1) + 1) ^ 2)

/-- The GGX normal-distribution formula of the spec with `α = roughness`
(the convention the code's `d_term`, called on raw roughness, implements). -/
def ggxD_alphaLin (rho nh : ℚ) : ℚ :=
  let alpha := rho
  alpha ^ 2 / (piF * (nh ^ 2 * (alpha ^ 2 - 1) + 1) ^ 2)

/-- The medium-transition rule exactly as the claim words it: volumetric and
`view·normal > 0` gives that material, every other case reverts to none. -/
def claimNextMedia (mat : Material) (v n : Vec3) : Option Material :=
  if 0 < mat.volume_density ∧ 0 < v.dot n then some mat else none

/-- The medium-transition rule as amended: for a non-volumetric material the
carried medium is left unchanged rather than cleared. -/
def specNextMediaAmended (mat : Material) (current : Option Material)
    (v n : Vec3) : Option Material :=
  if 0 < mat.volume_density then
    (if 0 < v.dot n then some mat else none)
  else current

/-- The claim's "indirect bounce attempt": sample a bounce direction, and if
it lies in the upper hemisphere recurse and weight the incoming radiance —
with no Russian-roulette division.  Assembled from the embedded
`sampleBounceDir` and `trace` for comparison against the integrator. -/
def claimIndirectAttempt (ops : FOps) (objs : List PT.Object)
    (lights : List Light) (hitp n v : Vec3) (mat : Material)
    (next_media : Option Material) (depth : ℕ) (rng : RNG) : Vec3 × RNG :=
  let ((nd, brdf), rng1) := PT.sampleBounceDir ops n v mat rng
  if 0 < nd.dot n then
    let (inc, rng2) :=
      PT.trace ops (hitp.add (nd.scale 1e-4)) nd objs lights (depth + 1) rng1
        next_media
    ((inc.mul brdf).scale (nd.dot n), rng2)
  else (⟨0, 0, 0⟩, rng1)

/-! ## Helper lemmas -/

theorem sqrtQ_sq (a : ℚ) (h : 0 ≤ a) : sqrtQ (a * a) = a := by
  unfold sqrtQ
  have hd : a.den * a.den = a.den ^ 2 := (pow_two a.den).symm
  rw [Rat.mul_self_num, Rat.mul_self_den, Int.sqrt_eq, hd, Nat.sqrt_eq',
    Int.natAbs_of_nonneg (Rat.num_nonneg.mpr h)]
  exact Rat.num_div_den a

theorem Vec3.mul_ones (a : Vec3) : a.mul ⟨1, 1, 1⟩ = a := by
  simp [Vec3.mul]

theorem Vec3.add_zero_vec (a : Vec3) : a.add ⟨0, 0, 0⟩ = a := by
  simp [Vec3.add]

theorem Vec3.dot_self_nonneg (a : Vec3) : 0 ≤ a.dot a := by
  simp only [Vec3.dot]
  nlinarith [sq_nonneg a.x, sq_nonneg a.y, sq_nonneg a.z]

/-! ## Claim theorems: geometry -/


/-- C7: for a sphere of radius `r` and a ray with unit direction aimed at the
center from an outside origin at distance `L`, `Sphere::hit` returns the hit
at distance exactly `L - r`, with normal `(hit - center)/r` of unit length.
(The sqrt oracle is constrained only at the discriminant `4r²`, where the
exact value is `2r`.) -/
theorem sphere_hit_aimed_from_outside (ops : FOps) (s : PT.Sphere) (o d : Vec3) (L : ℚ)
    (hr : 0 < s.radius) (hout : s.radius < L)
    (hL : (o.sub s.center).dot (o.sub s.center) = L * L)
    (hdir : d = (s.center.sub o).scale (1 / L))
    (hsq : ops.sqrt (4 * (s.radius * s.radius)) = 2 * s.radius) :
    PT.Sphere.hit ops s o d =
      some (L - s.radius,
        ((o.add (d.scale (L - s.radius))).sub s.center).scale (1 / s.radius),
        s.material) ∧
    ((((o.add (d.scale (L - s.radius))).sub s.center).scale (1 / s.radius)).dot
      ((((o.add (d.scale (L - s.radius))).sub s.center)).scale (1 / s.radius))) = 1 := by
  have hL0 : 0 < L := lt_trans hr hout
  have hLne : L ≠ 0 := ne_of_gt hL0
  have hrne : s.radius ≠ 0 := ne_of_gt hr
  have ha : d.dot d = 1 := by
    have key : d.dot d
        = (1 / L) * (1 / L) * ((o.sub s.center).dot (o.sub s.center)) := by
      subst hdir
      simp only [Vec3.dot, Vec3.sub, Vec3.scale]
      ring
    rw [key, hL]
    field_simp
  have hb : (o.sub s.center).dot d = -L := by
    have key : (o.sub s.center).dot d
        = -((1 / L) * ((o.sub s.center).dot (o.sub s.center))) := by
      subst hdir
      simp only [Vec3.dot, Vec3.sub, Vec3.scale]
      ring
    rw [key, hL]
    field_simp
  have hn : ((o.add (d.scale (L - s.radius))).sub s.center)
      = d.scale (-s.radius) := by
    subst hdir
    simp only [Vec3.add, Vec3.sub, Vec3.scale, Vec3.mk.injEq]
    refine ⟨by field_simp; ring, by field_simp; ring, by field_simp; ring⟩
  constructor
  · simp only [PT.Sphere.hit]
    rw [ha, hb, hL]
    have hdisc : 2 * -L * (2 * -L) - 4 * 1 * (L * L - s.radius * s.radius)
        = 4 * (s.radius * s.radius) := by ring
    rw [hdisc, hsq]
    have hnneg : ¬ (4 * (s.radius * s.radius) < 0) := by nlinarith
    rw [if_neg hnneg]
    have ht : (-(2 * -L) - 2 * s.radius) / (2 * 1) = L - s.radius := by ring
    rw [ht]
    have htpos : ¬ (L - s.radius ≤ 0) := by push_neg; linarith
    rw [if_neg htpos]
  · rw [hn]
    simp only [Vec3.dot, Vec3.scale]
    have hdd : d.x * d.x + d.y * d.y + d.z * d.z = 1 := ha
    field_simp
    linear_combination (s.radius * s.radius) * hdd

/-- C7 witness: unit sphere at the origin, ray from `(3,0,0)` aimed at the
center: hit at `t = 3 - 1 = 2` with unit normal `(1,0,0)`. -/
theorem sphere_hit_aimed_from_outside_witness :
    PT.Sphere.hit opsQ ⟨⟨0,0,0⟩, 1, default, false⟩ ⟨3,0,0⟩ ⟨-1,0,0⟩
      = some (2, ⟨1,0,0⟩, (default : Material)) := by
  have h := sphere_hit_aimed_from_outside opsQ ⟨⟨0,0,0⟩, 1, default, false⟩
    ⟨3,0,0⟩ ⟨-1,0,0⟩ 3
    (by norm_num) (by norm_num)
    (by norm_num [Vec3.sub, Vec3.dot])
    (by norm_num [Vec3.sub, Vec3.scale, Vec3.mk.injEq])
    (by show sqrtQ (4 * (1 * 1)) = 2 * 1
        rw [show (4 * ((1:ℚ) * 1)) = 2 * 2 by norm_num, sqrtQ_sq 2 (by norm_num)]
        norm_num)
  rw [h.1]
  norm_num [Vec3.add, Vec3.scale, Vec3.sub, Vec3.mk.injEq]

/-- C10: for every sphere and every ray whose origin lies strictly inside it,
`Sphere::hit` returns `None` — the smaller quadratic root is non-positive and
the farther positive root is never taken.  The sqrt oracle is constrained
only to be nonnegative and to not undershoot the true square root of the
discriminant, which the exact square root satisfies. -/
theorem sphere_hit_inside_none (ops : FOps) (s : PT.Sphere) (ro rd : Vec3)
    (b c2 disc : ℚ)
    (hin : (ro.sub s.center).dot (ro.sub s.center) < s.radius * s.radius)
    (hb : b = 2 * (ro.sub s.center).dot rd)
    (hc : c2 = (ro.sub s.center).dot (ro.sub s.center) - s.radius * s.radius)
    (hdisc : disc = b * b - 4 * rd.dot rd * c2)
    (hs0 : 0 ≤ ops.sqrt disc)
    (hs2 : disc ≤ ops.sqrt disc * ops.sqrt disc) :
    PT.Sphere.hit ops s ro rd = none := by
  simp only [PT.Sphere.hit]
  rw [← hb, ← hc, ← hdisc]
  by_cases hneg : disc < 0
  · rw [if_pos hneg]
  · rw [if_neg hneg]
    have ha0 : 0 ≤ rd.dot rd := Vec3.dot_self_nonneg rd
    have hcneg : c2 < 0 := by rw [hc]; linarith
    have ht : (-b - ops.sqrt disc) / (2 * rd.dot rd) ≤ 0 := by
      rcases eq_or_lt_of_le ha0 with hz | hpos
      · rw [← hz]
        norm_num
      · apply div_nonpos_of_nonpos_of_nonneg
        · nlinarith [hs2, hs0, sq_nonneg (ops.sqrt disc + b)]
        · linarith
    rw [if_pos ht]

/-- C10 witness: ray starting at `(1,0,0)` inside the radius-2 sphere at the
origin reports no intersection. -/
theorem sphere_hit_inside_none_witness :
    PT.Sphere.hit opsQ ⟨⟨0,0,0⟩, 2, default, false⟩ ⟨1,0,0⟩ ⟨1,0,0⟩ = none := by
  have hsq16 : opsQ.sqrt 16 = 4 := by
    show sqrtQ 16 = 4
    rw [show (16:ℚ) = 4 * 4 by norm_num, sqrtQ_sq 4 (by norm_num)]
  exact sphere_hit_inside_none opsQ ⟨⟨0,0,0⟩, 2, default, false⟩ ⟨1,0,0⟩ ⟨1,0,0⟩
    2 (-3) 16
    (by norm_num [Vec3.sub, Vec3.dot])
    (by norm_num [Vec3.sub, Vec3.dot])
    (by norm_num [Vec3.sub, Vec3.dot])
    (by norm_num [Vec3.sub, Vec3.dot])
    (by rw [hsq16]; norm_num)
    (by rw [hsq16]; norm_num)

/-- C8: for every parallelogram and every ray meeting its supporting plane at
an acceptable `t` (denominator not near-parallel, `t > 1e-4`), the hit is
accepted if and only if `|d·u| ≤ |u|²` and `|d·v| ≤ |v|²` — boundary
inclusive, anything beyond rejected. -/
theorem plane_hit_boundary_iff (p : PT.Plane) (ro rd : Vec3) (t : ℚ)
    (hden : ¬ |p.normal.dot rd| < 1e-6)
    (htdef : t = (p.point.sub ro).dot p.normal / p.normal.dot rd)
    (ht : ¬ t ≤ 1e-4) :
    ((PT.Plane.hit p ro rd).isSome ↔
      (|((ro.add (rd.scale t)).sub p.point).dot p.u| ≤ p.u.dot p.u ∧
       |((ro.add (rd.scale t)).sub p.point).dot p.v| ≤ p.v.dot p.v)) := by
  simp only [PT.Plane.hit]
  rw [← htdef, if_neg hden, if_neg ht]
  by_cases h1 : |((ro.add (rd.scale t)).sub p.point).dot p.u| > p.u.dot p.u
  · rw [if_pos h1]
    simp [not_le.mpr h1]
  · rw [if_neg h1]
    by_cases h2 : |((ro.add (rd.scale t)).sub p.point).dot p.v| > p.v.dot p.v
    · rw [if_pos h2]
      simp [not_le.mpr h2]
    · rw [if_neg h2]
      simp [not_lt.mp h1, not_lt.mp h2]

/-- C8 witness: a ray striking the unit parallelogram exactly at the corner
of its `u` extent (`|d·u| = |u|²`) is accepted. -/
theorem plane_hit_boundary_iff_witness :
    (PT.Plane.hit ⟨⟨0,0,0⟩, ⟨1,0,0⟩, ⟨0,1,0⟩, ⟨0,0,1⟩, default⟩
      ⟨1,0,1⟩ ⟨0,0,-1⟩).isSome = true := by
  have h := plane_hit_boundary_iff ⟨⟨0,0,0⟩, ⟨1,0,0⟩, ⟨0,1,0⟩, ⟨0,0,1⟩, default⟩
    ⟨1,0,1⟩ ⟨0,0,-1⟩ 1
    (by norm_num [Vec3.dot])
    (by norm_num [Vec3.dot, Vec3.sub])
    (by norm_num)
  rw [h]
  norm_num [Vec3.add, Vec3.scale, Vec3.sub, Vec3.dot]

/-! ## Claim theorems: closest hit under a total order -/


theorem totalCmp_refl (a : PT.FNa) : PT.totalCmp a a ≠ .gt := by
  cases a with
  | fin q => simpa [PT.totalCmp] using compare_le_iff_le.mpr (le_refl q)
  | nan => simp [PT.totalCmp]

theorem totalCmp_trans {a b c : PT.FNa} (h1 : PT.totalCmp a b ≠ .gt)
    (h2 : PT.totalCmp b c ≠ .gt) : PT.totalCmp a c ≠ .gt := by
  cases a <;> cases b <;> cases c <;>
    (simp_all [PT.totalCmp, compare_le_iff_le]; try linarith)

theorem totalCmp_gt_flip {a b : PT.FNa} (h : PT.totalCmp a b = .gt) :
    PT.totalCmp b a ≠ .gt := by
  cases a <;> cases b <;>
    (simp_all [PT.totalCmp, compare_le_iff_le, compare_gt_iff_gt]; try linarith)

theorem minFold_spec {α : Type} (cs : List (PT.FNa × α)) (c : PT.FNa × α) :
    (List.foldl (fun x y => if PT.totalCmp x.1 y.1 = .gt then y else x) c cs = c ∨
     List.foldl (fun x y => if PT.totalCmp x.1 y.1 = .gt then y else x) c cs ∈ cs) ∧
    (∀ y : PT.FNa × α, (y = c ∨ y ∈ cs) →
      PT.totalCmp
        (List.foldl (fun x y => if PT.totalCmp x.1 y.1 = .gt then y else x) c cs).1
        y.1 ≠ .gt) := by
  induction cs generalizing c with
  | nil =>
    refine ⟨Or.inl rfl, ?_⟩
    rintro y (rfl | h)
    · exact totalCmp_refl _
    · cases h
  | cons d ds ih =>
    simp only [List.foldl_cons]
    obtain ⟨hmem, hle⟩ := ih (if PT.totalCmp c.1 d.1 = .gt then d else c)
    have hstep_le_c : PT.totalCmp (if PT.totalCmp c.1 d.1 = .gt then d else c).1 c.1 ≠ .gt := by
      by_cases hgt : PT.totalCmp c.1 d.1 = .gt
      · rw [if_pos hgt]; exact totalCmp_gt_flip hgt
      · rw [if_neg hgt]; exact totalCmp_refl _
    have hstep_le_d : PT.totalCmp (if PT.totalCmp c.1 d.1 = .gt then d else c).1 d.1 ≠ .gt := by
      by_cases hgt : PT.totalCmp c.1 d.1 = .gt
      · rw [if_pos hgt]; exact totalCmp_refl _
      · rw [if_neg hgt]; exact hgt
    constructor
    · rcases hmem with heq | hmem
      · rw [heq]
        by_cases hgt : PT.totalCmp c.1 d.1 = .gt
        · rw [if_pos hgt]; exact Or.inr (List.mem_cons_self d ds)
        · rw [if_neg hgt]; exact Or.inl rfl
      · exact Or.inr (List.mem_cons_of_mem d hmem)
    · rintro y (rfl | hy)
      · exact totalCmp_trans (hle _ (Or.inl rfl)) hstep_le_c
      · rcases List.mem_cons.mp hy with rfl | hy
        · exact totalCmp_trans (hle _ (Or.inl rfl)) hstep_le_d
        · exact hle y (Or.inr hy)

theorem minByQ_lift {β : Type} (cs : List (ℚ × β)) :
    PT.minByTot (cs.map (fun x => ((PT.FNa.fin x.1 : PT.FNa), x.2)))
      = (PT.minByQ cs).map (fun x => ((PT.FNa.fin x.1 : PT.FNa), x.2)) := by
  cases cs with
  | nil => rfl
  | cons c rest =>
    simp only [PT.minByTot, PT.minByQ, List.map_cons, Option.map_some, List.foldl_map]
    congr 1
    induction rest generalizing c with
    | nil => rfl
    | cons d ds ih =>
      simp only [List.foldl_cons]
      rw [show (if PT.totalCmp (PT.FNa.fin c.1, c.2).1 (PT.FNa.fin d.1) = .gt
            then ((PT.FNa.fin d.1 : PT.FNa), d.2) else (PT.FNa.fin c.1, c.2))
          = (fun x : ℚ × β => ((PT.FNa.fin x.1 : PT.FNa), x.2))
              (if compare c.1 d.1 = .gt then d else c) from ?_]
      · exact ih _
      · by_cases hgt : compare c.1 d.1 = .gt
        · rw [if_pos hgt, if_pos (by simpa [PT.totalCmp] using hgt)]
        · rw [if_neg hgt, if_neg (by simpa [PT.totalCmp] using hgt)]

/-- C2: `min_by` under `total_cmp` (the selection `intersect_closest` of
`src/renderer.rs` performs) is total on every candidate list — NaN distances
included, so no comparison can panic — returns `none` exactly on the empty
list, and otherwise returns a member whose distance is minimal in the total
order; and on the (finite-valued) candidates the embedded scene produces,
`intersect_closest` agrees with that total-order minimum. -/
theorem intersect_closest_total_min
    (cs : List PT.CandF) (res : PT.CandF)
    (hres : PT.minByTot cs = some res) :
    (res ∈ cs ∧ ∀ c ∈ cs, PT.totalCmp res.1 c.1 ≠ .gt) ∧
    (∀ cs2 : List PT.CandF, PT.minByTot cs2 = none ↔ cs2 = []) ∧
    (∀ (ops : FOps) (ro rd : Vec3) (objs : List PT.Object),
      (PT.intersect_closest ops ro rd objs).map (fun x => ((PT.FNa.fin x.1 : PT.FNa), x.2))
        = PT.minByTot ((objs.filterMap (fun o => o.hit ops ro rd)).map
            (fun x => ((PT.FNa.fin x.1 : PT.FNa), x.2)))) := by
  refine ⟨?_, ?_, ?_⟩
  · cases cs with
    | nil => simp [PT.minByTot] at hres
    | cons c rest =>
      simp only [PT.minByTot, Option.some_inj] at hres
      obtain ⟨hmem, hle⟩ := minFold_spec rest c
      subst hres
      constructor
      · rcases hmem with heq | hmem
        · rw [heq]; exact List.mem_cons_self c rest
        · exact List.mem_cons_of_mem c hmem
      · intro y hy
        rcases List.mem_cons.mp hy with rfl | hy
        · exact hle _ (Or.inl rfl)
        · exact hle y (Or.inr hy)
  · intro cs2
    cases cs2 <;> simp [PT.minByTot]
  · intro ops ro rd objs
    rw [PT.intersect_closest, minByQ_lift]

/-- C2 witness: on a candidate list containing a NaN distance, the selection
still returns the finite minimum, which is total-order-below every
candidate, the NaN one included. -/
theorem intersect_closest_total_min_witness :
    ((PT.FNa.fin 1, (⟨0,0,0⟩ : Vec3), (default : Material)) ∈
      ([(PT.FNa.fin 2, ⟨0,0,0⟩, default), (PT.FNa.nan, ⟨0,0,0⟩, default),
        (PT.FNa.fin 1, ⟨0,0,0⟩, default)] : List PT.CandF)) ∧
    (∀ c ∈ ([(PT.FNa.fin 2, ⟨0,0,0⟩, default), (PT.FNa.nan, ⟨0,0,0⟩, default),
        (PT.FNa.fin 1, ⟨0,0,0⟩, default)] : List PT.CandF),
      PT.totalCmp (PT.FNa.fin 1) c.1 ≠ .gt) := by
  have h := intersect_closest_total_min
    [(PT.FNa.fin 2, ⟨0,0,0⟩, default), (PT.FNa.nan, ⟨0,0,0⟩, default),
     (PT.FNa.fin 1, ⟨0,0,0⟩, default)]
    (PT.FNa.fin 1, ⟨0,0,0⟩, default)
    (by decide)
  exact ⟨h.1.1, fun c hc => h.1.2 c hc⟩

/-! ## Claim theorems: BSDF constants, medium transition, refraction -/


/-- C4 counterexample: at roughness `ρ = 1/2` and `n·h = 1`, the code's GGX
factor (`d_term` called on raw roughness) is `4/π`, while the claimed
`α = ρ²` formula gives `16/π`. -/
theorem d_term_alpha_counterexample :
    PT.d_term 1 (1/2) ≠ ggxD_alphaSq (1/2) 1 := by
  norm_num [PT.d_term, ggxD_alphaSq, piF]

/-- C4 amended: the BSDF's normal-distribution factor `d_term(n·h, roughness)`
implements the GGX formula with `α = ρ` (one squaring), which differs, for
every roughness strictly between 0 and 1, from the `α = ρ²` convention the
half-vector sampler `sample_ggx_h` uses in its `cosθ` inversion. -/
theorem d_term_alpha_convention :
    (∀ rho nh : ℚ, PT.d_term nh rho = ggxD_alphaLin rho nh) ∧
    (∀ rho : ℚ, 0 < rho → rho < 1 → PT.d_term 1 rho ≠ ggxD_alphaSq rho 1) := by
  have hpi : (0:ℚ) < piF := by norm_num [piF]
  constructor
  · intro rho nh
    simp only [PT.d_term, ggxD_alphaLin]
    ring_nf
  · intro rho h0 h1 heq
    have hrne : rho ≠ 0 := ne_of_gt h0
    have e1 : PT.d_term 1 rho = 1 / (piF * rho^2) := by
      simp only [PT.d_term]
      rw [show (1:ℚ) * 1 * (rho * rho - 1) + 1 = rho^2 by ring]
      rw [show rho * rho = rho^2 by ring]
      rw [div_eq_div_iff (by positivity) (by positivity)]
      ring
    have e2 : ggxD_alphaSq rho 1 = 1 / (piF * rho^4) := by
      simp only [ggxD_alphaSq]
      rw [show (1:ℚ)^2 * ((rho^2)^2 - 1) + 1 = rho^4 by ring]
      rw [show ((rho:ℚ)^2)^2 = rho^4 by ring]
      rw [div_eq_div_iff (by positivity) (by positivity)]
      ring
    rw [e1, e2] at heq
    rw [div_eq_div_iff (by positivity) (by positivity)] at heq
    have h3 : piF * rho^4 = piF * rho^2 := by linarith
    have h2 : rho^4 = rho^2 := mul_left_cancel₀ (ne_of_gt hpi) h3
    have hr2 : rho^2 < 1 := by nlinarith
    nlinarith [mul_pos (pow_pos h0 2) (sub_pos.mpr hr2)]

/-- C4 witness: at roughness 1/2 and `n·h = 1` the code's D factor equals the
`α = ρ` formula and differs from the `α = ρ²` formula. -/
theorem d_term_alpha_convention_witness :
    PT.d_term 1 (1/2) = ggxD_alphaLin (1/2) 1 ∧
    PT.d_term 1 (1/2) ≠ ggxD_alphaSq (1/2) 1 :=
  ⟨d_term_alpha_convention.1 (1/2) 1,
   d_term_alpha_convention.2 (1/2) (by norm_num) (by norm_num)⟩

/-- C5 counterexample: hitting a non-volumetric material (`volume_density =
0`) while carrying a medium keeps the carried medium, where the claim's rule
("otherwise the carried medium reverts to none") demands `none`. -/
theorem next_media_counterexample :
    PT.nextMedia ⟨⟨1,1,1⟩, 0, 1, 1, 0, 0⟩ (some ⟨⟨0,0,0⟩, 0, 0, 1, 2, 0⟩)
        ⟨0,1,0⟩ ⟨0,1,0⟩ = some ⟨⟨0,0,0⟩, 0, 0, 1, 2, 0⟩ ∧
    claimNextMedia ⟨⟨1,1,1⟩, 0, 1, 1, 0, 0⟩ ⟨0,1,0⟩ ⟨0,1,0⟩ = none := by
  constructor
  · simp [PT.nextMedia]
  · simp [claimNextMedia]

/-- C5 amended: the medium carried into the recursive call is: for a
volumetric hit material, that material when `view·normal > 0` and `none`
otherwise; for a non-volumetric hit material, the incoming medium unchanged. -/
theorem next_media_amended (mat : Material) (cur : Option Material) (v n : Vec3) :
    PT.nextMedia mat cur v n = specNextMediaAmended mat cur v n := rfl

/-- C9 counterexample: the claim quantifies over every unit incident
direction with nonzero incidence cosine, but for a negative incidence cosine
(back-face geometry: `v = n = (0,1,0)`, cosine `-1`) `refract` with eta
ratio 1 returns `(0,-1,0) ≠ v`, so bending-free transmission fails as
stated. -/
theorem refract_identity_counterexample :
    ((Vec3.mk 0 1 0).dot (Vec3.mk 0 1 0) = 1) ∧
    (((Vec3.mk 0 1 0).neg).dot (Vec3.mk 0 1 0) ≠ 0) ∧
    PT.refract opsQ ⟨0,1,0⟩ ⟨0,1,0⟩ 1 = some ⟨0,-1,0⟩ ∧
    (Vec3.mk 0 (-1) 0 ≠ Vec3.mk 0 1 0) := by
  have h1 : sqrtQ 1 = 1 := by
    simpa using sqrtQ_sq 1 (by norm_num)
  refine ⟨by norm_num [Vec3.dot], by norm_num [Vec3.dot, Vec3.neg], ?_,
    by norm_num [Vec3.mk.injEq]⟩
  norm_num [PT.refract, Vec3.dot, Vec3.neg, Vec3.add, Vec3.scale, opsQ,
    Vec3.mk.injEq, h1]

/-- C9 amended: for `ior = 1` the Schlick base reflectance `r0` of the
dielectric branch is exactly 0 under both eta orderings, and `refract` with
eta ratio 1 maps every unit incident direction with positive incidence
cosine to `some` of that same direction (the sqrt oracle constrained only at
`cos²θ`, where the exact value is `cosθ`). -/
theorem refract_eta_one_identity (ops : FOps) (v n : Vec3)
    (hv : v.dot v = 1) (hn : n.dot n = 1)
    (hc : 0 < (v.neg).dot n)
    (hs : ops.sqrt (((v.neg).dot n) ^ 2) = (v.neg).dot n) :
    PT.refract ops v n 1 = some v ∧
    (∀ cosi : ℚ,
      PT.schlickR0 (PT.dielectricEtas cosi 1).1 (PT.dielectricEtas cosi 1).2 = 0) := by
  constructor
  · simp only [PT.refract]
    have hc1 : (v.neg).dot n ≤ 1 := by
      simp only [Vec3.dot, Vec3.neg] at hv hn ⊢
      nlinarith [sq_nonneg (v.x + n.x), sq_nonneg (v.y + n.y), sq_nonneg (v.z + n.z)]
    rw [min_eq_left hc1]
    have hrp : ((v.add (n.scale ((v.neg).dot n))).scale 1).dot
        ((v.add (n.scale ((v.neg).dot n))).scale 1) = 1 - ((v.neg).dot n)^2 := by
      simp only [Vec3.dot, Vec3.neg, Vec3.add, Vec3.scale] at hv hn ⊢
      linear_combination hv + (v.x * n.x + v.y * n.y + v.z * n.z)^2 * hn
    rw [hrp]
    rw [show (1:ℚ) - (1 - ((v.neg).dot n)^2) = ((v.neg).dot n)^2 by ring]
    rw [abs_of_nonneg (sq_nonneg _), hs]
    have hcond : 1 - ((v.neg).dot n)^2 < 1 := by nlinarith
    rw [if_pos hcond]
    obtain ⟨vx, vy, vz⟩ := v
    obtain ⟨nx, ny, nz⟩ := n
    simp only [Vec3.add, Vec3.scale, Vec3.neg, Vec3.dot, Option.some_inj,
      Vec3.mk.injEq]
    refine ⟨by ring, by ring, by ring⟩
  · intro cosi
    by_cases h : 0 < cosi <;>
      simp [PT.dielectricEtas, PT.schlickR0, h]

/-- C9 witness: head-on incidence `v = (0,0,-1)` on normal `(0,0,1)` with
eta ratio 1 refracts to itself. -/
theorem refract_eta_one_identity_witness :
    PT.refract opsQ ⟨0,0,-1⟩ ⟨0,0,1⟩ 1 = some ⟨0,0,-1⟩ := by
  have h := refract_eta_one_identity opsQ ⟨0,0,-1⟩ ⟨0,0,1⟩
    (by norm_num [Vec3.dot]) (by norm_num [Vec3.dot])
    (by norm_num [Vec3.dot, Vec3.neg])
    (by show sqrtQ _ = _
        norm_num [Vec3.dot, Vec3.neg]
        simpa using sqrtQ_sq 1 (by norm_num))
  exact h.1

/-! ## Claim theorems: the integrators' miss and termination behaviour -/


/-- C1 counterexample: the medium-carrying integrator of `src/renderer.rs`
returns black `(0,0,0)` for a ray that hits nothing with no carried medium
(empty scene, depth 0), while the sky gradient at that direction's
y-component is `(0.75, 0.85, 1)` — so `trace` does not return the
sky-gradient function. -/
theorem trace_miss_black_counterexample :
    PT.trace opsQ ⟨5,7,9⟩ ⟨0,1,0⟩ [] [] 0 [] none = (⟨0,0,0⟩, []) ∧
    Main.skyGradient ((Vec3.mk 0 1 0).y) ≠ ⟨0,0,0⟩ := by
  constructor
  · simp [PT.trace, PT.traceF, PT.intersect_closest, PT.minByQ, PT.ltInf,
      Vec3.mul, PT.MAX_DEPTH]
  · norm_num [Main.skyGradient, Vec3.scale, Vec3.add, Vec3.mk.injEq]

/-- C1 amended: on a miss with no carried medium the `src/renderer.rs`
integrator returns zero radiance — black — independent of origin (and of
depth); the sky-gradient-of-`rd.y` miss shading, also independent of
origin, is what the legacy `src/main.rs` integrator returns. -/
theorem trace_miss_no_media (ops : FOps) (ro rd : Vec3) (objs : List PT.Object)
    (lights : List Light) (depth : ℕ) (rng : RNG)
    (hmiss : PT.intersect_closest ops ro rd objs = none) :
    PT.trace ops ro rd objs lights depth rng none = (⟨0,0,0⟩, rng) ∧
    (∀ (ops2 : FOps) (ro2 rd2 : Vec3) (objs2 : List Main.Object)
       (light2 : Main.Light) (d g : ℕ) (rng2 : RNG),
      d < Main.MAX_DEPTH → g < Main.MAX_GLASS_BOUNCES →
      Main.intersect_closest ops2 ro2 rd2 objs2 = none →
      Main.trace ops2 ro2 rd2 objs2 light2 d g rng2
        = (Main.skyGradient rd2.y, rng2)) := by
  constructor
  · unfold PT.trace
    cases hfuel : PT.MAX_DEPTH - depth with
    | zero => simp [PT.traceF]
    | succ fuel =>
      have hdep : ¬ PT.MAX_DEPTH ≤ depth := by
        simp only [PT.MAX_DEPTH] at hfuel ⊢
        omega
      simp only [PT.traceF]
      rw [if_neg hdep, hmiss]
      simp [PT.ltInf, Vec3.mul]
  · intro ops2 ro2 rd2 objs2 light2 d g rng2 hd hg hmiss2
    unfold Main.trace
    cases hfuel : Main.MAX_DEPTH - d with
    | zero =>
      exfalso
      simp only [Main.MAX_DEPTH] at hfuel hd
      omega
    | succ fuel =>
      have hd2 : ¬ Main.MAX_DEPTH ≤ d := by omega
      have hg2 : ¬ Main.MAX_GLASS_BOUNCES ≤ g := by omega
      simp only [Main.traceF]
      rw [if_neg hd2, if_neg hg2, hmiss2]

/-- C1 witness: concrete miss (empty scene) at depth 3 returns black and
leaves the RNG stream untouched. -/
theorem trace_miss_no_media_witness :
    PT.intersect_closest opsQ ⟨1,2,3⟩ ⟨0,1,0⟩ [] = none ∧
    PT.trace opsQ ⟨1,2,3⟩ ⟨0,1,0⟩ [] [] 3 [7] none = (⟨0,0,0⟩, [7]) := by
  have hm : PT.intersect_closest opsQ ⟨1,2,3⟩ ⟨0,1,0⟩ [] = none := by
    simp [PT.intersect_closest, PT.minByQ]
  exact ⟨hm, (trace_miss_no_media opsQ ⟨1,2,3⟩ ⟨0,1,0⟩ [] [] 3 [7] hm).1⟩

/-- C3: whenever recursion depth ≥ `MAX_DEPTH` (12) or the glass-bounce
count ≥ `MAX_GLASS_BOUNCES` (8), the `src/main.rs` integrator returns zero
radiance without consuming randomness; the `src/renderer.rs` integrator does
the same at its own `MAX_DEPTH` (5).  Both embedded integrators are total
functions, so neither guard can raise an error. -/
theorem trace_termination_black (ops : FOps) (ro rd : Vec3)
    (objs : List Main.Object) (light : Main.Light) (depth glass_bounces : ℕ)
    (rng : RNG)
    (h : Main.MAX_DEPTH ≤ depth ∨ Main.MAX_GLASS_BOUNCES ≤ glass_bounces) :
    Main.trace ops ro rd objs light depth glass_bounces rng = (⟨0,0,0⟩, rng) ∧
    (∀ (ops2 : FOps) (ro2 rd2 : Vec3) (objs2 : List PT.Object)
        (lights2 : List Light) (d2 : ℕ) (rng2 : RNG) (cm : Option Material),
      PT.MAX_DEPTH ≤ d2 →
      PT.trace ops2 ro2 rd2 objs2 lights2 d2 rng2 cm = (⟨0,0,0⟩, rng2)) := by
  constructor
  · unfold Main.trace
    cases hfuel : Main.MAX_DEPTH - depth with
    | zero => simp [Main.traceF]
    | succ fuel =>
      have hd : ¬ Main.MAX_DEPTH ≤ depth := by
        simp only [Main.MAX_DEPTH] at hfuel ⊢
        omega
      have hg : Main.MAX_GLASS_BOUNCES ≤ glass_bounces := by
        rcases h with h1 | h2
        · exact absurd h1 hd
        · exact h2
      simp only [Main.traceF]
      rw [if_neg hd, if_pos hg]
  · intro ops2 ro2 rd2 objs2 lights2 d2 rng2 cm hd2
    unfold PT.trace
    rw [Nat.sub_eq_zero_of_le hd2]
    simp [PT.traceF]

/-- C3 witness: at depth exactly `MAX_DEPTH = 12` the legacy integrator
returns black with the RNG stream untouched. -/
theorem trace_termination_black_witness :
    Main.trace opsQ ⟨0,0,0⟩ ⟨0,1,0⟩ []
      ⟨⟨0,0,0⟩, ⟨1,0,0⟩, ⟨0,0,1⟩, ⟨1,1,1⟩⟩ 12 0 [5] = (⟨0,0,0⟩, [5]) :=
  (trace_termination_black opsQ ⟨0,0,0⟩ ⟨0,1,0⟩ []
    ⟨⟨0,0,0⟩, ⟨1,0,0⟩, ⟨0,0,1⟩, ⟨1,1,1⟩⟩ 12 0 [5]
    (Or.inl (by norm_num [Main.MAX_DEPTH]))).1

/-! ## Claim theorems: Russian roulette -/


/-- C6: at an opaque surface interaction with no carried medium, the
integrator's indirect bounce follows the Russian-roulette policy: below
`RUSSIAN_ROULETTE_DEPTH` the bounce attempt always happens, with no roulette
draw consumed and no division; at or above the threshold a draw `ξ` is
consumed and the attempt happens exactly when `ξ < p` with
`p = max(color.r, color.g, color.b)` of the clamped material, the attempted
contribution divided by `p`; otherwise only direct lighting remains. -/
theorem russian_roulette_policy
    (ops : FOps) (ro rd : Vec3) (objs : List PT.Object) (lights : List Light)
    (depth : ℕ) (rng : RNG) (t : ℚ) (n : Vec3) (mat0 mat : Material)
    (hitp v : Vec3) (dl : Vec3 × RNG) (p : ℚ)
    (hdepth : depth < PT.MAX_DEPTH)
    (hhit : PT.intersect_closest ops ro rd objs = some (t, n, mat0))
    (hmat : mat = { mat0 with metallic := min (max mat0.metallic 0) 1,
                              roughness := min (max mat0.roughness 0.01) 1 })
    (hglass : ¬ (1 < mat0.ior ∧ min (max mat0.metallic 0) 1 < 0.1))
    (hhitp : hitp = ro.add (rd.scale t))
    (hv : v = rd.neg)
    (hdl : dl = PT.direct_light_sample ops hitp n v mat objs lights rng)
    (hp : p = max (max mat0.color.x mat0.color.y) mat0.color.z) :
    (depth < PT.RUSSIAN_ROULETTE_DEPTH →
      PT.trace ops ro rd objs lights depth rng none =
        (dl.1.add (claimIndirectAttempt ops objs lights hitp n v mat
            (PT.nextMedia mat none v n) depth dl.2).1,
         (claimIndirectAttempt ops objs lights hitp n v mat
            (PT.nextMedia mat none v n) depth dl.2).2)) ∧
    (PT.RUSSIAN_ROULETTE_DEPTH ≤ depth → (dl.2.next).1 < p →
      PT.trace ops ro rd objs lights depth rng none =
        (dl.1.add ((claimIndirectAttempt ops objs lights hitp n v mat
            (PT.nextMedia mat none v n) depth (dl.2.next).2).1.scale (1 / p)),
         (claimIndirectAttempt ops objs lights hitp n v mat
            (PT.nextMedia mat none v n) depth (dl.2.next).2).2)) ∧
    (PT.RUSSIAN_ROULETTE_DEPTH ≤ depth → ¬ ((dl.2.next).1 < p) →
      PT.trace ops ro rd objs lights depth rng none = (dl.1, (dl.2.next).2)) := by
  subst hmat hhitp hv
  obtain ⟨dl1, dl2⟩ := dl
  have hdep : ¬ PT.MAX_DEPTH ≤ depth := Nat.not_le_of_lt hdepth
  have hfe : PT.MAX_DEPTH - depth = (PT.MAX_DEPTH - (depth + 1)) + 1 := by
    simp only [PT.MAX_DEPTH] at hdepth ⊢
    omega
  refine ⟨?_, ?_, ?_⟩
  · intro hrr
    rw [PT.trace, hfe]
    simp only [PT.traceF]
    rw [if_neg hdep, hhit]
    simp only [PT.ltInf, Option.map_some, Bool.false_eq_true, if_false]
    rw [if_neg hglass, ← hdl, ← hp]
    simp only [claimIndirectAttempt, PT.trace]
    rw [if_pos hrr]
    simp only [eq_self_iff_true, if_true]
    rcases hsb : PT.sampleBounceDir ops n rd.neg
      { mat0 with metallic := min (max mat0.metallic 0) 1,
                  roughness := min (max mat0.roughness 0.01) 1 } dl2
      with ⟨⟨nd, brdf⟩, rng3⟩
    simp only []
    by_cases hdot : 0 < nd.dot n
    · rw [if_pos hdot, if_pos hdot]
      rcases htr : PT.traceF ops objs lights (PT.MAX_DEPTH - (depth + 1))
          ((ro.add (rd.scale t)).add (nd.scale 1e-4)) nd (depth + 1) rng3
          (PT.nextMedia
            { mat0 with metallic := min (max mat0.metallic 0) 1,
                        roughness := min (max mat0.roughness 0.01) 1 }
            none rd.neg n) with ⟨inc, rng4⟩
      simp only []
      rw [if_neg (Nat.not_le_of_lt hrr), Vec3.mul_ones]
    · rw [if_neg hdot, if_neg hdot, Vec3.add_zero_vec, Vec3.mul_ones]
  · intro hrr hxi
    rw [PT.trace, hfe]
    simp only [PT.traceF]
    rw [if_neg hdep, hhit]
    simp only [PT.ltInf, Option.map_some, Bool.false_eq_true, if_false]
    rw [if_neg hglass, ← hdl, ← hp]
    simp only [claimIndirectAttempt, PT.trace]
    rw [if_neg (Nat.not_lt.mpr hrr)]
    rcases hnx : RNG.next dl2 with ⟨xi, rng3x⟩
    rw [hnx] at hxi
    simp only [] at hxi
    simp only [decide_eq_true_eq]
    rw [if_pos hxi]
    rcases hsb : PT.sampleBounceDir ops n rd.neg
      { mat0 with metallic := min (max mat0.metallic 0) 1,
                  roughness := min (max mat0.roughness 0.01) 1 } rng3x
      with ⟨⟨nd, brdf⟩, rng3⟩
    simp only []
    by_cases hdot : 0 < nd.dot n
    · rw [if_pos hdot, if_pos hdot]
      rcases htr : PT.traceF ops objs lights (PT.MAX_DEPTH - (depth + 1))
          ((ro.add (rd.scale t)).add (nd.scale 1e-4)) nd (depth + 1) rng3
          (PT.nextMedia
            { mat0 with metallic := min (max mat0.metallic 0) 1,
                        roughness := min (max mat0.roughness 0.01) 1 }
            none rd.neg n) with ⟨inc, rng4⟩
      simp only []
      rw [if_pos hrr, Vec3.mul_ones]
    · rw [if_neg hdot, if_neg hdot, Vec3.add_zero_vec, Vec3.mul_ones]
      have hz : (Vec3.mk 0 0 0).scale (1 / p) = ⟨0, 0, 0⟩ := by
        simp [Vec3.scale]
      rw [hz, Vec3.add_zero_vec]
  · intro hrr hxi
    rw [PT.trace, hfe]
    simp only [PT.traceF]
    rw [if_neg hdep, hhit]
    simp only [PT.ltInf, Option.map_some, Bool.false_eq_true, if_false]
    rw [if_neg hglass, ← hdl, ← hp]
    rw [if_neg (Nat.not_lt.mpr hrr)]
    rcases hnx : RNG.next dl2 with ⟨xi, rng3x⟩
    rw [hnx] at hxi
    simp only [] at hxi
    simp only [decide_eq_true_eq]
    rw [if_neg hxi, Vec3.add_zero_vec, Vec3.mul_ones]

/-- C6 witness: one diffuse sphere, depth 0 (below the threshold): the
result is direct lighting plus the undivided bounce attempt, no roulette
draw consumed. -/
theorem russian_roulette_policy_witness :
    PT.trace opsQ ⟨3,0,0⟩ ⟨-1,0,0⟩
      [PT.Object.sphere ⟨⟨0,0,0⟩, 1, ⟨⟨1/2,1/4,3/4⟩, 0, 1/2, 1, 0, 0⟩, false⟩]
      [] 0 [] none =
    ((Vec3.mk 0 0 0).add
      (claimIndirectAttempt opsQ
        [PT.Object.sphere ⟨⟨0,0,0⟩, 1, ⟨⟨1/2,1/4,3/4⟩, 0, 1/2, 1, 0, 0⟩, false⟩]
        [] ⟨1,0,0⟩ ⟨1,0,0⟩ ⟨1,0,0⟩ ⟨⟨1/2,1/4,3/4⟩, 0, 1/2, 1, 0, 0⟩
        (PT.nextMedia ⟨⟨1/2,1/4,3/4⟩, 0, 1/2, 1, 0, 0⟩ none ⟨1,0,0⟩ ⟨1,0,0⟩)
        0 []).1,
     (claimIndirectAttempt opsQ
        [PT.Object.sphere ⟨⟨0,0,0⟩, 1, ⟨⟨1/2,1/4,3/4⟩, 0, 1/2, 1, 0, 0⟩, false⟩]
        [] ⟨1,0,0⟩ ⟨1,0,0⟩ ⟨1,0,0⟩ ⟨⟨1/2,1/4,3/4⟩, 0, 1/2, 1, 0, 0⟩
        (PT.nextMedia ⟨⟨1/2,1/4,3/4⟩, 0, 1/2, 1, 0, 0⟩ none ⟨1,0,0⟩ ⟨1,0,0⟩)
        0 []).2) := by
  have hsq4 : sqrtQ 4 = 2 := by
    rw [show (4:ℚ) = 2 * 2 by norm_num, sqrtQ_sq 2 (by norm_num)]
  have h := russian_roulette_policy opsQ ⟨3,0,0⟩ ⟨-1,0,0⟩
    [PT.Object.sphere ⟨⟨0,0,0⟩, 1, ⟨⟨1/2,1/4,3/4⟩, 0, 1/2, 1, 0, 0⟩, false⟩]
    [] 0 [] 2 ⟨1,0,0⟩ ⟨⟨1/2,1/4,3/4⟩, 0, 1/2, 1, 0, 0⟩
    ⟨⟨1/2,1/4,3/4⟩, 0, 1/2, 1, 0, 0⟩ ⟨1,0,0⟩ ⟨1,0,0⟩ (⟨0,0,0⟩, []) (3/4)
    (by norm_num [PT.MAX_DEPTH])
    (by simp only [PT.intersect_closest, List.filterMap_cons, List.filterMap_nil,
          PT.Object.hit, PT.Sphere.hit, Vec3.sub, Vec3.dot, Vec3.add, Vec3.scale, opsQ]
        norm_num [hsq4, PT.minByQ, Vec3.mk.injEq])
    (by simp [Material.mk.injEq, min_def, max_def]; norm_num)
    (by norm_num)
    (by norm_num [Vec3.add, Vec3.scale, Vec3.mk.injEq])
    (by norm_num [Vec3.neg, Vec3.mk.injEq])
    (by simp [PT.direct_light_sample])
    (by simp [min_def, max_def]; norm_num)
  exact h.1 (by norm_num [PT.RUSSIAN_ROULETTE_DEPTH])
